import Mathlib

/-!
Shallow embedding of WireWarden (src/WireWarden.py), a PyQt6 WireGuard
interface manager.  The presentation layer (widgets, styling, window sizing,
status labels inside transitions) is elided; the embedded core is:

* `validChar`, `reFullMatchValid` : the interface-name validator
  VALID_IFACE_PATTERN, a compiled regular expression over the class
  [A-Za-z0-9_=+.-] anchored on both sides, with Python re anchor semantics
  (the end anchor also matches just before a newline that ends the string).
* `check_invalid_configs`, `load_configs` : the startup directory scan.
* `get_active_ifaces` : the probe running "wg show interfaces".
* `bring_up`, `bring_down`, `run_wg_quick` : the transition controller.
* `initApp`, `refresh` : startup state and the periodic refresh step.

External effects (directory contents, subprocess outcomes, effective uid,
pkexec availability) are supplied through `Env`; the observable effects of a
transition (commands launched, dialog boxes shown, whether the trailing
refresh re-probed) are collected in `Effects`.
-/

namespace WireWarden

/-- Python whitespace characters, as used by str.strip and no-argument
str.split (ASCII range). -/
def isPySpace (c : Char) : Bool :=
  c == ' ' || c == '\t' || c == '\n' || c == '\r' || c == '\x0b' || c == '\x0c'

/-- Python str.strip on a character list: drop leading and trailing
whitespace. -/
def stripL (l : List Char) : List Char :=
  ((l.dropWhile isPySpace).reverse.dropWhile isPySpace).reverse

/-- Python str.strip on strings. -/
def pyStrip (s : String) : String := String.mk (stripL s.data)

/-- Python no-argument str.split: runs of whitespace separate tokens, and
leading or trailing whitespace produces no empty token.  The accumulator
holds the current token reversed. -/
def splitWSAcc : List Char → List Char → List (List Char)
  | [], acc => if acc.isEmpty then [] else [acc.reverse]
  | c :: cs, acc =>
      if isPySpace c then
        if acc.isEmpty then splitWSAcc cs [] else acc.reverse :: splitWSAcc cs []
      else
        splitWSAcc cs (c :: acc)

/-- Python s.split() as a list of token strings. -/
def pySplit (s : String) : List String := (splitWSAcc s.data []).map String.mk

/-- One character of the class [A-Za-z0-9_=+.-]. -/
def validChar (c : Char) : Bool :=
  (decide ('A' ≤ c) && decide (c ≤ 'Z')) || (decide ('a' ≤ c) && decide (c ≤ 'z')) ||
  (decide ('0' ≤ c) && decide (c ≤ '9')) ||
  c == '_' || c == '=' || c == '+' || c == '.' || c == '-'

/-- Matcher for the tail of the pattern once at least one class character was
consumed: zero or more further class characters followed by the end anchor,
which in Python (no MULTILINE flag) matches at the end of the string or just
before a newline that ends the string. -/
def matchTail : List Char → Bool
  | [] => true
  | c :: cs => (c == '\n' && cs.isEmpty) || (validChar c && matchTail cs)

/-- Truthiness of VALID_IFACE_PATTERN.match s, where the pattern is the
start anchor, the class [A-Za-z0-9_=+.-] repeated one or more times, and the
end anchor. -/
def reFullMatchValid (s : String) : Bool :=
  match s.data with
  | [] => false
  | c :: cs => validChar c && matchTail cs

/-- pathlib stem: the file name without its last suffix; a suffix exists
exactly when the last dot sits strictly between the first and the last
character (CPython: 0 < name.rfind of the dot < length - 1). -/
def pathStem (s : String) : String :=
  let l := s.data
  match l.reverse.findIdx? (fun c => c == '.') with
  | none => s
  | some j =>
      let i := l.length - 1 - j
      if 0 < i ∧ i < l.length - 1 then String.mk (l.take i) else s

/-- Lexicographic (code point) comparison of character lists, the order
Python uses to compare strings: `charListLe a b` means a is at most b. -/
def charListLe : List Char → List Char → Bool
  | [], _ => true
  | _ :: _, [] => false
  | a :: as, b :: bs =>
      if a.toNat < b.toNat then true
      else if b.toNat < a.toNat then false
      else charListLe as bs

/-- Python string comparison (at most). -/
def strLe (a b : String) : Bool := charListLe a.data b.data

/-- Insert into a sorted list of strings. -/
def insertStr (a : String) : List String → List String
  | [] => [a]
  | b :: bs => if strLe a b then a :: b :: bs else b :: insertStr a bs

/-- Python sorted on a list of strings (insertion-sort model). -/
def sortStrings : List String → List String
  | [] => []
  | a :: as => insertStr a (sortStrings as)

/-- Keep one copy of each element (the contents of a Python set built from
the list). -/
def dedupStr : List String → List String
  | [] => []
  | a :: as => if a ∈ dedupStr as then dedupStr as else a :: dedupStr as

/-- Python sorted over a set built from the list. -/
def pySortedSet (l : List String) : List String := sortStrings (dedupStr l)

/-- Python join with a comma-space separator. -/
def joinComma : List String → String
  | [] => ""
  | [x] => x
  | x :: xs => x ++ ", " ++ joinComma xs

/-- Does a file name match the glob pattern for configuration files: any
name ending in the literal suffix .conf, case-sensitively (pathlib fnmatch
translation of the pattern). -/
def matchesConfGlob (name : String) : Bool := (".conf".data).isSuffixOf name.data

/-- The sorted glob over the application directory: matching filenames in
Python's lexicographic order (all paths share the directory prefix, so path
order is filename order). -/
def sortedConfFiles (files : List String) : List String :=
  sortStrings (files.filter matchesConfGlob)

/-- MainWindow.check_invalid_configs: the filenames (path.name) whose stem
fails VALID_IFACE_PATTERN.match, in sorted order. -/
def check_invalid_configs (files : List String) : List String :=
  (sortedConfFiles files).filter (fun n => !reFullMatchValid (pathStem n))

/-- MainWindow.load_configs: the interface names (stems) offered as cards,
in sorted filename order, skipping stems that fail validation. -/
def load_configs (files : List String) : List String :=
  (sortedConfFiles files).filterMap (fun n =>
    if reFullMatchValid (pathStem n) then some (pathStem n) else none)

/-- Outcome of the probe subprocess running "wg show interfaces": either the
binary is missing (FileNotFoundError) or it ran with a return code and a
standard output. -/
inductive ProbeResult where
  | notFound : ProbeResult
  | ran : Int → String → ProbeResult
deriving DecidableEq

/-- MainWindow.get_active_ifaces: a missing wg binary or a non-zero exit
yields the empty set; a zero exit yields the whitespace tokens of the
stripped standard output. -/
def get_active_ifaces : ProbeResult → List String
  | ProbeResult.notFound => []
  | ProbeResult.ran rc out => if rc ≠ 0 then [] else pySplit (pyStrip out)

/-- A modal dialog shown to the user (title, message). -/
inductive Dialog where
  | warning : String → String → Dialog
  | critical : String → String → Dialog
deriving DecidableEq

/-- Outcome of launching the wg-quick subprocess: the launch raised an
exception, or the process completed with a return code, a standard output
and a standard error. -/
inductive RunOutcome where
  | raised : String → RunOutcome
  | completed : Int → String → String → RunOutcome
deriving DecidableEq

/-- The environment a transition request runs against. -/
structure Env where
  appDir : String
  files : List String
  euid : Nat
  pkexec : Option String
  preProbe : ProbeResult
  runOutcome : RunOutcome
  postProbe : ProbeResult
deriving DecidableEq

/-- Observable effects of a transition request: the argv lists handed to the
wg-quick subprocess launcher, the dialogs shown, and the active set seen by
the trailing refresh when that refresh ran. -/
structure Effects where
  commands : List (List String)
  dialogs : List Dialog
  refreshedWith : Option (List String)
deriving DecidableEq

/-- No command, no dialog, no trailing refresh. -/
def noEffects : Effects := { commands := [], dialogs := [], refreshedWith := none }

/-- The configuration file path for an interface name. -/
def confPath (env : Env) (name : String) : String :=
  env.appDir ++ "/" ++ name ++ ".conf"

/-- The argv for wg-quick, wrapped with pkexec when the process is not root
and pkexec is available. -/
def wgQuickCmd (env : Env) (name : String) (up : Bool) : List String :=
  let cmd := ["wg-quick", if up then "up" else "down", confPath env name]
  if env.euid ≠ 0 then
    match env.pkexec with
    | some pk => pk :: cmd
    | none => cmd
  else cmd

/-- The diagnostic for a non-zero exit: stderr stripped if non-empty, else
stdout stripped if non-empty, else the fixed fallback text. -/
def wgQuickErrMsg (stderr stdout : String) : String :=
  if pyStrip stderr ≠ "" then pyStrip stderr
  else if pyStrip stdout ≠ "" then pyStrip stdout
  else "wg-quick failed"

/-- MainWindow.run_wg_quick.  The exception branch returns before the
trailing refresh, so no post-action probe happens there. -/
def run_wg_quick (env : Env) (name : String) (up : Bool) : Effects :=
  if (name ++ ".conf") ∉ env.files then
    { commands := [],
      dialogs := [Dialog.critical "Error" ("Config not found: " ++ confPath env name)],
      refreshedWith := none }
  else
    match env.runOutcome with
    | RunOutcome.raised emsg =>
        { commands := [wgQuickCmd env name up],
          dialogs := [Dialog.critical "Execution failed" emsg],
          refreshedWith := none }
    | RunOutcome.completed rc out err =>
        { commands := [wgQuickCmd env name up],
          dialogs :=
            if rc ≠ 0 then [Dialog.warning "wg-quick error" (wgQuickErrMsg err out)] else [],
          refreshedWith := some (get_active_ifaces env.postProbe) }

/-- The conflict dialog text of MainWindow.bring_up. -/
def conflictMsg (active : List String) (name : String) : String :=
  "Another WireGuard interface is active: " ++ joinComma (pySortedSet active) ++
    ".\nDisconnect it before bringing up " ++ name ++ "."

/-- MainWindow.bring_up. -/
def bring_up (env : Env) (name : String) : Effects :=
  let active := get_active_ifaces env.preProbe
  if active ≠ [] ∧ name ∉ active then
    { commands := [],
      dialogs := [Dialog.warning "Disconnect first" (conflictMsg active name)],
      refreshedWith := none }
  else if name ∈ active then noEffects
  else run_wg_quick env name true

/-- MainWindow.bring_down. -/
def bring_down (env : Env) (name : String) : Effects :=
  let active := get_active_ifaces env.preProbe
  if name ∉ active then noEffects
  else run_wg_quick env name false

/-- The startup-computed state: offered cards, the all-or-nothing gate, and
the status text. -/
structure AppState where
  cards : List String
  gateBlocked : Bool
  statusText : String
deriving DecidableEq

/-- The core of MainWindow construction: scan once; when any invalid name is
found, show the error dialog and never call load_configs. -/
def initApp (files : List String) : AppState :=
  if check_invalid_configs files ≠ [] then
    { cards := [], gateBlocked := true, statusText := "Idle" }
  else
    { cards := load_configs files, gateBlocked := false, statusText := "Idle" }

/-- What the world looks like when a periodic refresh fires: the directory
contents at that moment (which refresh never reads, since the code does not
rescan) and the probe outcome. -/
structure RefreshWorld where
  curFiles : List String
  probe : ProbeResult
deriving DecidableEq

/-- The status text set by MainWindow.refresh. -/
def activeStatus (active : List String) : String :=
  "Active: " ++ (if active ≠ [] then joinComma (pySortedSet active) else "none")

/-- MainWindow.refresh: re-probe the active set and update the display;
cards and the gate are untouched and the directory is not rescanned. -/
def refresh (st : AppState) (w : RefreshWorld) : AppState :=
  { st with statusText := activeStatus (get_active_ifaces w.probe) }

/-! Concrete environments used to instantiate the theorems below. -/

/-- home is active, its config and office.conf exist. -/
def envConflict : Env :=
  { appDir := "/wg", files := ["home.conf", "office.conf"], euid := 1000,
    pkexec := some "/usr/bin/pkexec", preProbe := ProbeResult.ran 0 "home",
    runOutcome := RunOutcome.completed 0 "" "", postProbe := ProbeResult.ran 0 "home" }

/-- Nothing active beforehand; launching wg-quick raises an exception. -/
def envLaunchFail : Env :=
  { appDir := "/wg", files := ["home.conf"], euid := 1000, pkexec := none,
    preProbe := ProbeResult.ran 0 "",
    runOutcome := RunOutcome.raised "No such file or directory",
    postProbe := ProbeResult.ran 0 "home" }

/-- Nothing active beforehand; wg-quick completes with a non-zero exit. -/
def envCompleted : Env :=
  { appDir := "/wg", files := ["home.conf"], euid := 0, pkexec := none,
    preProbe := ProbeResult.ran 0 "", runOutcome := RunOutcome.completed 1 "" "boom",
    postProbe := ProbeResult.ran 0 "" }

/-- home is already active. -/
def envAlreadyUp : Env :=
  { appDir := "/wg", files := ["home.conf"], euid := 0, pkexec := none,
    preProbe := ProbeResult.ran 0 "home", runOutcome := RunOutcome.completed 0 "" "",
    postProbe := ProbeResult.ran 0 "home" }

/-- Nothing is active. -/
def envNothingUp : Env :=
  { appDir := "/wg", files := ["home.conf"], euid := 0, pkexec := none,
    preProbe := ProbeResult.ran 0 "", runOutcome := RunOutcome.completed 0 "" "",
    postProbe := ProbeResult.ran 0 "" }

/-- A refresh world whose directory contents differ from the startup scan. -/
def wsChanged : List RefreshWorld :=
  [{ curFiles := ["fixed.conf"], probe := ProbeResult.ran 0 "wg0" }]

/-! Helper lemmas about the string utilities. -/

theorem splitWSAcc_dropWhile (l : List Char) :
    splitWSAcc (l.dropWhile isPySpace) [] = splitWSAcc l [] := by
  induction l with
  | nil => rfl
  | cons c cs ih =>
      rw [List.dropWhile_cons]
      by_cases h : isPySpace c = true
      · rw [if_pos h, ih]
        show _ = splitWSAcc (c :: cs) []
        simp [splitWSAcc, h]
      · rw [if_neg h]

theorem splitWSAcc_allSpace (sp : List Char) (hsp : sp.all isPySpace = true) :
    ∀ acc : List Char, splitWSAcc sp acc = if acc.isEmpty then [] else [acc.reverse] := by
  induction sp with
  | nil => intro acc; rfl
  | cons c cs ih =>
      intro acc
      rw [List.all_cons, Bool.and_eq_true] at hsp
      show splitWSAcc (c :: cs) acc = _
      simp only [splitWSAcc, hsp.1, if_true]
      by_cases ha : acc.isEmpty = true
      · simp only [ha, if_true, ih hsp.2]
        rfl
      · simp only [ha, if_false, ih hsp.2]
        rfl

theorem splitWSAcc_append_spaces (sp : List Char) (hsp : sp.all isPySpace = true) :
    ∀ (l acc : List Char), splitWSAcc (l ++ sp) acc = splitWSAcc l acc := by
  intro l
  induction l with
  | nil =>
      intro acc
      rw [List.nil_append, splitWSAcc_allSpace sp hsp acc]
      rfl
  | cons c cs ih =>
      intro acc
      show splitWSAcc (c :: (cs ++ sp)) acc = splitWSAcc (c :: cs) acc
      simp only [splitWSAcc]
      by_cases h : isPySpace c = true
      · simp only [h, if_true]
        by_cases ha : acc.isEmpty = true <;> simp [ha, ih]
      · simp only [h, if_false, Bool.false_eq_true, ih]

theorem dropWhile_eq_stripL_append (l : List Char) :
    ∃ sp, sp.all isPySpace = true ∧ l.dropWhile isPySpace = stripL l ++ sp := by
  have h : ((l.dropWhile isPySpace).reverse.takeWhile isPySpace)
      ++ ((l.dropWhile isPySpace).reverse.dropWhile isPySpace)
      = (l.dropWhile isPySpace).reverse :=
    List.takeWhile_append_dropWhile isPySpace (l.dropWhile isPySpace).reverse
  refine ⟨((l.dropWhile isPySpace).reverse.takeWhile isPySpace).reverse, ?_, ?_⟩
  · rw [List.all_eq_true]
    intro a ha
    rw [List.mem_reverse] at ha
    exact List.mem_takeWhile_imp ha
  · have h2 := congrArg List.reverse h
    rw [List.reverse_append, List.reverse_reverse] at h2
    exact h2.symm

theorem splitWSAcc_stripL (l : List Char) :
    splitWSAcc (stripL l) [] = splitWSAcc l [] := by
  obtain ⟨sp, hsp, hd⟩ := dropWhile_eq_stripL_append l
  have h1 := splitWSAcc_append_spaces sp hsp (stripL l) []
  rw [← hd] at h1
  rw [← h1]
  exact splitWSAcc_dropWhile l

theorem pySplit_pyStrip (s : String) : pySplit (pyStrip s) = pySplit s := by
  show (splitWSAcc (stripL s.data) []).map String.mk = (splitWSAcc s.data []).map String.mk
  rw [splitWSAcc_stripL]

/-! Helper lemmas about sorting and deduplication. -/

theorem mem_insertStr (x a : String) (l : List String) :
    x ∈ insertStr a l ↔ x = a ∨ x ∈ l := by
  induction l with
  | nil => simp [insertStr]
  | cons b bs ih =>
      show x ∈ (if strLe a b = true then a :: b :: bs else b :: insertStr a bs) ↔ _
      by_cases h : strLe a b = true
      · rw [if_pos h]
        exact List.mem_cons
      · rw [if_neg h]
        rw [List.mem_cons, ih, List.mem_cons]
        tauto

theorem mem_sortStrings (x : String) (l : List String) :
    x ∈ sortStrings l ↔ x ∈ l := by
  induction l with
  | nil => simp [sortStrings]
  | cons a as ih =>
      show x ∈ insertStr a (sortStrings as) ↔ _
      rw [mem_insertStr]
      simp only [List.mem_cons, ih]

theorem mem_dedupStr (x : String) (l : List String) :
    x ∈ dedupStr l ↔ x ∈ l := by
  induction l with
  | nil => simp [dedupStr]
  | cons a as ih =>
      show x ∈ (if a ∈ dedupStr as then dedupStr as else a :: dedupStr as) ↔ _
      by_cases h : a ∈ dedupStr as
      · rw [if_pos h]
        simp only [List.mem_cons, ih]
        constructor
        · exact Or.inr
        · rintro (rfl | hx)
          · exact (ih).mp h
          · exact hx
      · rw [if_neg h]
        simp only [List.mem_cons, ih]

theorem charListLe_total (a : List Char) : ∀ b : List Char,
    charListLe a b = true ∨ charListLe b a = true := by
  induction a with
  | nil => intro b; left; rfl
  | cons x xs ih =>
      intro b
      cases b with
      | nil => right; rfl
      | cons y ys =>
          show charListLe (x :: xs) (y :: ys) = true ∨ charListLe (y :: ys) (x :: xs) = true
          simp only [charListLe]
          by_cases h1 : x.toNat < y.toNat
          · left; rw [if_pos h1]
          · by_cases h2 : y.toNat < x.toNat
            · right; rw [if_pos h2]
            · rcases ih ys with h | h
              · left; rw [if_neg h1, if_neg h2]; exact h
              · right; rw [if_neg h2, if_neg h1]; exact h

theorem charListLe_trans (a : List Char) : ∀ b c : List Char,
    charListLe a b = true → charListLe b c = true → charListLe a c = true := by
  induction a with
  | nil => intro b c _ _; rfl
  | cons x xs ih =>
      intro b c hab hbc
      cases b with
      | nil => exact absurd hab (by simp [charListLe])
      | cons y ys =>
          cases c with
          | nil => exact absurd hbc (by simp [charListLe])
          | cons z zs =>
              simp only [charListLe] at hab hbc ⊢
              have hab2 : x.toNat < y.toNat ∨
                  (x.toNat = y.toNat ∧ charListLe xs ys = true) := by
                by_cases h1 : x.toNat < y.toNat
                · exact Or.inl h1
                · by_cases h2 : y.toNat < x.toNat
                  · rw [if_neg h1, if_pos h2] at hab; cases hab
                  · refine Or.inr ⟨by omega, ?_⟩
                    rwa [if_neg h1, if_neg h2] at hab
              have hbc2 : y.toNat < z.toNat ∨
                  (y.toNat = z.toNat ∧ charListLe ys zs = true) := by
                by_cases h1 : y.toNat < z.toNat
                · exact Or.inl h1
                · by_cases h2 : z.toNat < y.toNat
                  · rw [if_neg h1, if_pos h2] at hbc; cases hbc
                  · refine Or.inr ⟨by omega, ?_⟩
                    rwa [if_neg h1, if_neg h2] at hbc
              rcases hab2 with h | ⟨he, hr⟩ <;> rcases hbc2 with h2 | ⟨he2, hr2⟩
              · rw [if_pos (by omega : x.toNat < z.toNat)]
              · rw [if_pos (by omega : x.toNat < z.toNat)]
              · rw [if_pos (by omega : x.toNat < z.toNat)]
              · rw [if_neg (by omega : ¬ x.toNat < z.toNat),
                    if_neg (by omega : ¬ z.toNat < x.toNat)]
                exact ih ys zs hr hr2

theorem strLe_total (a b : String) : strLe a b = true ∨ strLe b a = true :=
  charListLe_total a.data b.data

theorem strLe_trans (a b c : String) (h1 : strLe a b = true) (h2 : strLe b c = true) :
    strLe a c = true :=
  charListLe_trans a.data b.data c.data h1 h2

theorem pairwise_insertStr (a : String) (l : List String)
    (hl : l.Pairwise (fun x y => strLe x y = true)) :
    (insertStr a l).Pairwise (fun x y => strLe x y = true) := by
  induction l with
  | nil => simp [insertStr]
  | cons b bs ih =>
      rcases List.pairwise_cons.mp hl with ⟨hb, hbs⟩
      show (if strLe a b = true then a :: b :: bs else b :: insertStr a bs).Pairwise _
      by_cases h : strLe a b = true
      · rw [if_pos h]
        refine List.pairwise_cons.mpr ⟨?_, hl⟩
        intro y hy
        rcases List.mem_cons.mp hy with rfl | hy2
        · exact h
        · exact strLe_trans a b y h (hb y hy2)
      · rw [if_neg h]
        refine List.pairwise_cons.mpr ⟨?_, ih hbs⟩
        intro y hy
        rcases (mem_insertStr y a bs).mp hy with rfl | hy2
        · rcases strLe_total y b with h1 | h1
          · exact absurd h1 h
          · exact h1
        · exact hb y hy2

theorem pairwise_sortStrings (l : List String) :
    (sortStrings l).Pairwise (fun x y => strLe x y = true) := by
  induction l with
  | nil => exact List.Pairwise.nil
  | cons a as ih => exact pairwise_insertStr a (sortStrings as) ih

/-! Helper lemmas about message construction and the validator. -/

theorem strData_append (s t : String) : (s ++ t).data = s.data ++ t.data := rfl

theorem joinComma_names (a : String) : ∀ l : List String, a ∈ l →
    ∃ p q : List Char, (joinComma l).data = p ++ (a.data ++ q) := by
  intro l
  induction l with
  | nil => intro h; cases h
  | cons x xs ih =>
      intro h
      cases xs with
      | nil =>
          rcases List.mem_singleton.mp h with rfl
          exact ⟨[], [], by simp [joinComma]⟩
      | cons y ys =>
          rcases List.mem_cons.mp h with rfl | h2
          · refine ⟨[], (", " ++ joinComma (y :: ys)).data, ?_⟩
            show (a ++ ", " ++ joinComma (y :: ys)).data = _
            simp [strData_append, List.append_assoc]
          · rcases ih h2 with ⟨p, q, hpq⟩
            refine ⟨(x ++ ", ").data ++ p, q, ?_⟩
            show (x ++ ", " ++ joinComma (y :: ys)).data = _
            rw [strData_append, hpq, List.append_assoc]

theorem conflictMsg_names (active : List String) (name a : String) (h : a ∈ active) :
    ∃ p q : List Char, (conflictMsg active name).data = p ++ (a.data ++ q) := by
  have ha : a ∈ pySortedSet active :=
    (mem_sortStrings a (dedupStr active)).mpr ((mem_dedupStr a active).mpr h)
  rcases joinComma_names a (pySortedSet active) ha with ⟨p, q, hpq⟩
  refine ⟨"Another WireGuard interface is active: ".data ++ p,
          q ++ (".\nDisconnect it before bringing up " ++ name ++ ".").data, ?_⟩
  show ("Another WireGuard interface is active: " ++ joinComma (pySortedSet active) ++
      ".\nDisconnect it before bringing up " ++ name ++ ".").data = _
  simp only [strData_append, hpq, List.append_assoc]

theorem matchTail_iff (l : List Char) :
    matchTail l = true ↔
      l.all validChar = true ∨ ∃ t, l = t ++ ['\n'] ∧ t.all validChar = true := by
  induction l with
  | nil => simp [matchTail]
  | cons c cs ih =>
      show ((c == '\n' && cs.isEmpty) || (validChar c && matchTail cs)) = true ↔ _
      rw [Bool.or_eq_true, Bool.and_eq_true, Bool.and_eq_true]
      constructor
      · rintro (⟨hc, hcs⟩ | ⟨hv, hm⟩)
        · right
          rw [beq_iff_eq] at hc
          rw [List.isEmpty_iff] at hcs
          refine ⟨[], ?_, rfl⟩
          rw [hc, hcs]
          rfl
        · rcases ih.mp hm with hall | ⟨t, rfl, hallt⟩
          · left
            rw [List.all_cons, Bool.and_eq_true]
            exact ⟨hv, hall⟩
          · right
            refine ⟨c :: t, rfl, ?_⟩
            rw [List.all_cons, Bool.and_eq_true]
            exact ⟨hv, hallt⟩
      · rintro (hall | ⟨t, ht, hallt⟩)
        · rw [List.all_cons, Bool.and_eq_true] at hall
          exact Or.inr ⟨hall.1, ih.mpr (Or.inl hall.2)⟩
        · cases t with
          | nil =>
              left
              rw [List.nil_append] at ht
              injection ht with h1 h2
              constructor
              · rw [h1]; rfl
              · rw [h2]; rfl
          | cons x t2 =>
              rw [List.cons_append] at ht
              injection ht with h1 h2
              subst h1
              rw [List.all_cons, Bool.and_eq_true] at hallt
              exact Or.inr ⟨hallt.1, ih.mpr (Or.inr ⟨t2, h2, hallt.2⟩)⟩

/-! Helper lemma about the refresh loop. -/

theorem foldl_refresh_preserves (st : AppState) : ∀ ws : List RefreshWorld,
    (List.foldl refresh st ws).cards = st.cards ∧
    (List.foldl refresh st ws).gateBlocked = st.gateBlocked := by
  intro ws
  induction ws generalizing st with
  | nil => exact ⟨rfl, rfl⟩
  | cons w ws ih =>
      show (List.foldl refresh (refresh st w) ws).cards = _ ∧ _
      rcases ih (refresh st w) with ⟨h1, h2⟩
      exact ⟨h1, h2⟩

/-! Claim theorems. -/

/-- C1: when the freshly probed active set is non-empty and does not contain
the target name, bring_up rejects the request: no wg-quick command is
launched, and the conflict dialog is shown whose message contains every
currently active interface name. -/
theorem bring_up_conflict_rejects (env : Env) (name : String)
    (hne : get_active_ifaces env.preProbe ≠ [])
    (hnm : name ∉ get_active_ifaces env.preProbe) :
    (bring_up env name).commands = [] ∧
    (bring_up env name).dialogs =
      [Dialog.warning "Disconnect first"
        (conflictMsg (get_active_ifaces env.preProbe) name)] ∧
    ∀ a ∈ get_active_ifaces env.preProbe,
      ∃ p q : List Char,
        (conflictMsg (get_active_ifaces env.preProbe) name).data = p ++ (a.data ++ q) := by
  have hb : bring_up env name =
      { commands := [],
        dialogs := [Dialog.warning "Disconnect first"
          (conflictMsg (get_active_ifaces env.preProbe) name)],
        refreshedWith := none } := by
    simp only [bring_up]
    rw [if_pos ⟨hne, hnm⟩]
  refine ⟨by rw [hb], by rw [hb], ?_⟩
  intro a ha
  exact conflictMsg_names (get_active_ifaces env.preProbe) name a ha

/-- C1 witness: with home active, requesting office up is rejected with the
conflict dialog and no command is launched. -/
theorem bring_up_conflict_rejects_witness :
    (get_active_ifaces envConflict.preProbe ≠ [] ∧
     "office" ∉ get_active_ifaces envConflict.preProbe) ∧
    ((bring_up envConflict "office").commands = [] ∧
     (bring_up envConflict "office").dialogs =
       [Dialog.warning "Disconnect first"
         (conflictMsg (get_active_ifaces envConflict.preProbe) "office")] ∧
     ∀ a ∈ get_active_ifaces envConflict.preProbe,
       ∃ p q : List Char,
         (conflictMsg (get_active_ifaces envConflict.preProbe) "office").data =
           p ++ (a.data ++ q)) :=
  ⟨⟨by decide, by decide⟩,
   bring_up_conflict_rejects envConflict "office" (by decide) (by decide)⟩

/-- C2 counterexample: with envLaunchFail the bring-up request reaches the
execution stage (a wg-quick command is launched), the launch fails, and no
post-action re-probe happens — refuting the claim that the controller
re-probes after the attempt regardless of outcome, launch failure included. -/
theorem reprobe_launch_failure_cex :
    (bring_up envLaunchFail "home").commands = [["wg-quick", "up", "/wg/home.conf"]] ∧
    (bring_up envLaunchFail "home").refreshedWith = none := by
  decide

/-- C2 (amended): for a request that reaches the execution stage with the
config present, a completed execution — success or non-zero exit — is
followed by a re-probe whose fresh snapshot is carried in the result, while
a launch failure returns without any re-probe. -/
theorem run_wg_quick_reprobe_amended (env : Env) (name : String) (up : Bool)
    (hconf : (name ++ ".conf") ∈ env.files) :
    (run_wg_quick env name up).refreshedWith =
      (match env.runOutcome with
       | RunOutcome.raised _ => none
       | RunOutcome.completed _ _ _ => some (get_active_ifaces env.postProbe)) := by
  unfold run_wg_quick
  rw [if_neg (fun hc => hc hconf)]
  cases henv : env.runOutcome
  · rfl
  · rfl

/-- C2 witness: a completed (failing) run carries the fresh post-action
snapshot. -/
theorem run_wg_quick_reprobe_amended_witness :
    ("home" ++ ".conf") ∈ envCompleted.files ∧
    (run_wg_quick envCompleted "home" true).refreshedWith =
      (match envCompleted.runOutcome with
       | RunOutcome.raised _ => none
       | RunOutcome.completed _ _ _ => some (get_active_ifaces envCompleted.postProbe)) :=
  ⟨by decide, run_wg_quick_reprobe_amended envCompleted "home" true (by decide)⟩

/-- C3 counterexample: the validator accepts the two-character string of an
a followed by a newline, although the newline is not in the allowed set, so
the claimed equivalence fails there (Python end-anchor also matches just
before a trailing newline). -/
theorem validator_trailing_newline_cex :
    ¬ (reFullMatchValid "a\n" = true ↔
        ("a\n" ≠ "" ∧ ("a\n").data.all validChar = true)) := by
  decide

/-- C3 (amended): the validator accepts s iff s is non-empty with every
character in the class A-Z, a-z, 0-9, underscore, equals, plus, dot, minus,
or s is such a string followed by exactly one trailing newline. -/
theorem validator_accepts_amended (s : String) :
    reFullMatchValid s = true ↔
      (s.data ≠ [] ∧ s.data.all validChar = true) ∨
      (∃ t, s.data = t ++ ['\n'] ∧ t ≠ [] ∧ t.all validChar = true) := by
  unfold reFullMatchValid
  rcases hd : s.data with _ | ⟨c, cs⟩
  · constructor
    · intro h; cases h
    · rintro (⟨h, _⟩ | ⟨t, ht, _, _⟩)
      · exact absurd rfl h
      · exact absurd ht.symm (by simp)
  · rw [Bool.and_eq_true, matchTail_iff]
    constructor
    · rintro ⟨hv, hall | ⟨t, hcs, hallt⟩⟩
      · left
        refine ⟨List.cons_ne_nil c cs, ?_⟩
        rw [List.all_cons, Bool.and_eq_true]
        exact ⟨hv, hall⟩
      · right
        refine ⟨c :: t, by rw [hcs, List.cons_append], List.cons_ne_nil c t, ?_⟩
        rw [List.all_cons, Bool.and_eq_true]
        exact ⟨hv, hallt⟩
    · rintro (⟨_, hall⟩ | ⟨t, ht, htne, hallt⟩)
      · rw [List.all_cons, Bool.and_eq_true] at hall
        exact ⟨hall.1, Or.inl hall.2⟩
      · cases t with
        | nil => exact absurd rfl htne
        | cons x t2 =>
            rw [List.cons_append] at ht
            injection ht with h1 h2
            subst h1
            rw [List.all_cons, Bool.and_eq_true] at hallt
            exact ⟨hallt.1, Or.inr ⟨t2, h2, hallt.2⟩⟩

/-- C4: when the startup scan finds any invalid configuration file name, no
interface is offered at all (the card list is empty and the gate is
blocked), and it stays that way across any sequence of later refreshes. -/
theorem invalid_gate_blocks_all (files : List String) (ws : List RefreshWorld)
    (h : check_invalid_configs files ≠ []) :
    (List.foldl refresh (initApp files) ws).cards = [] ∧
    (List.foldl refresh (initApp files) ws).gateBlocked = true := by
  have h0 : initApp files =
      { cards := [], gateBlocked := true, statusText := "Idle" } := by
    unfold initApp
    rw [if_pos h]
  rcases foldl_refresh_preserves (initApp files) ws with ⟨h1, h2⟩
  rw [h1, h2, h0]
  exact ⟨rfl, rfl⟩

/-- C4 witness: a directory with one invalid and one valid config name
offers no interface at startup nor after a refresh. -/
theorem invalid_gate_blocks_all_witness :
    check_invalid_configs ["office vpn.conf", "home.conf"] ≠ [] ∧
    ((List.foldl refresh (initApp ["office vpn.conf", "home.conf"]) wsChanged).cards = [] ∧
     (List.foldl refresh (initApp ["office vpn.conf", "home.conf"]) wsChanged).gateBlocked
       = true) :=
  ⟨by decide, invalid_gate_blocks_all ["office vpn.conf", "home.conf"] wsChanged (by decide)⟩

/-- C5: a bring-up whose target is already in the freshly probed active set
and a bring-down whose target is not in the freshly probed active set are
no-ops: no command launched, no dialog shown, no trailing refresh. -/
theorem transition_idempotent_noops (envU envD : Env) (name : String)
    (hup : name ∈ get_active_ifaces envU.preProbe)
    (hdown : name ∉ get_active_ifaces envD.preProbe) :
    bring_up envU name = noEffects ∧ bring_down envD name = noEffects := by
  constructor
  · simp only [bring_up]
    rw [if_neg (fun hc => hc.2 hup), if_pos hup]
  · simp only [bring_down]
    rw [if_pos hdown]

/-- C5 witness: bringing home up while home is active, and bringing home
down while nothing is active, are both no-ops. -/
theorem transition_idempotent_noops_witness :
    ("home" ∈ get_active_ifaces envAlreadyUp.preProbe ∧
     "home" ∉ get_active_ifaces envNothingUp.preProbe) ∧
    (bring_up envAlreadyUp "home" = noEffects ∧
     bring_down envNothingUp "home" = noEffects) :=
  ⟨⟨by decide, by decide⟩,
   transition_idempotent_noops envAlreadyUp envNothingUp "home" (by decide) (by decide)⟩

/-- C6: when the backing configuration file of the target is absent at
invocation time, run_wg_quick launches no command and reports the
config-missing error dialog. -/
theorem config_missing_no_command (env : Env) (name : String) (up : Bool)
    (h : (name ++ ".conf") ∉ env.files) :
    (run_wg_quick env name up).commands = [] ∧
    (run_wg_quick env name up).dialogs =
      [Dialog.critical "Error" ("Config not found: " ++ confPath env name)] := by
  unfold run_wg_quick
  rw [if_pos h]
  exact ⟨rfl, rfl⟩

/-- C6 witness: requesting ghost up while ghost.conf does not exist yields
the config-missing dialog and no command. -/
theorem config_missing_no_command_witness :
    ("ghost" ++ ".conf") ∉ envNothingUp.files ∧
    ((run_wg_quick envNothingUp "ghost" true).commands = [] ∧
     (run_wg_quick envNothingUp "ghost" true).dialogs =
       [Dialog.critical "Error" ("Config not found: " ++ confPath envNothingUp "ghost")]) :=
  ⟨by decide, config_missing_no_command envNothingUp "ghost" true (by decide)⟩

/-- C7: the probe returns the empty set (not an error) when the tool is
absent or exits non-zero; on a zero exit it returns exactly the
whitespace-separated tokens of the raw standard output (the strip before
splitting is immaterial), and empty output yields the empty set. -/
theorem probe_failure_empty_and_tokens :
    get_active_ifaces ProbeResult.notFound = [] ∧
    (∀ (rc : Int) (out : String), rc ≠ 0 →
      get_active_ifaces (ProbeResult.ran rc out) = []) ∧
    (∀ out : String, get_active_ifaces (ProbeResult.ran 0 out) = pySplit out) ∧
    get_active_ifaces (ProbeResult.ran 0 "") = [] := by
  refine ⟨rfl, ?_, ?_, by decide⟩
  · intro rc out h
    simp only [get_active_ifaces]
    rw [if_pos h]
  · intro out
    simp only [get_active_ifaces]
    rw [if_neg (by simp : ¬ (0 : Int) ≠ 0)]
    exact pySplit_pyStrip out

/-- C7 witness: a non-zero exit yields the empty set; a zero exit with
whitespace-padded output yields its tokens. -/
theorem probe_failure_empty_and_tokens_witness :
    ((1 : Int) ≠ 0 ∧ get_active_ifaces (ProbeResult.ran 1 "wg0") = []) ∧
    get_active_ifaces (ProbeResult.ran 0 " wg0  home\n") = pySplit " wg0  home\n" :=
  ⟨⟨by decide, probe_failure_empty_and_tokens.2.1 1 "wg0" (by decide)⟩,
   probe_failure_empty_and_tokens.2.2.1 " wg0  home\n"⟩

/-- C8: the scan of the example directory yields valid stems home and wg0 in
lexicographic order and the invalid full filename; in general the sorted
glob contains exactly the files with the .conf extension, in lexicographic
(Python string) order. -/
theorem scan_enumeration_partition :
    check_invalid_configs ["wg0.conf", "office vpn.conf", "home.conf"]
      = ["office vpn.conf"] ∧
    load_configs ["wg0.conf", "office vpn.conf", "home.conf"] = ["home", "wg0"] ∧
    (∀ (files : List String) (n : String),
      n ∈ sortedConfFiles files ↔ (n ∈ files ∧ matchesConfGlob n = true)) ∧
    (∀ files : List String,
      (sortedConfFiles files).Pairwise (fun a b => strLe a b = true)) := by
  refine ⟨by decide, by decide, ?_, ?_⟩
  · intro files n
    unfold sortedConfFiles
    rw [mem_sortStrings, List.mem_filter]
  · intro files
    exact pairwise_sortStrings (files.filter matchesConfGlob)

/-- C9: a non-zero exit of the launched tool reports exactly the trimmed
standard error if non-empty, else the trimmed standard output if non-empty,
else the fixed fallback text. -/
theorem command_failure_message (env : Env) (name : String) (up : Bool)
    (rc : Int) (out err : String)
    (hconf : (name ++ ".conf") ∈ env.files)
    (hrun : env.runOutcome = RunOutcome.completed rc out err)
    (hrc : rc ≠ 0) :
    (run_wg_quick env name up).dialogs =
      [Dialog.warning "wg-quick error" (wgQuickErrMsg err out)] ∧
    (pyStrip err ≠ "" → wgQuickErrMsg err out = pyStrip err) ∧
    (pyStrip err = "" → pyStrip out ≠ "" → wgQuickErrMsg err out = pyStrip out) ∧
    (pyStrip err = "" → pyStrip out = "" → wgQuickErrMsg err out = "wg-quick failed") := by
  refine ⟨?_, ?_, ?_, ?_⟩
  · unfold run_wg_quick
    rw [if_neg (fun hc => hc hconf), hrun]
    show (if rc ≠ 0 then [Dialog.warning "wg-quick error" (wgQuickErrMsg err out)]
          else ([] : List Dialog))
        = [Dialog.warning "wg-quick error" (wgQuickErrMsg err out)]
    rw [if_pos hrc]
  · intro h1
    unfold wgQuickErrMsg
    rw [if_pos h1]
  · intro h1 h2
    unfold wgQuickErrMsg
    rw [if_neg (fun hc => hc h1), if_pos h2]
  · intro h1 h2
    unfold wgQuickErrMsg
    rw [if_neg (fun hc => hc h1), if_neg (fun hc => hc h2)]

/-- C9 witness: a non-zero exit with stderr boom and empty stdout reports
boom. -/
theorem command_failure_message_witness :
    (("home" ++ ".conf") ∈ envCompleted.files ∧
     envCompleted.runOutcome = RunOutcome.completed 1 "" "boom" ∧ (1 : Int) ≠ 0) ∧
    ((run_wg_quick envCompleted "home" true).dialogs =
       [Dialog.warning "wg-quick error" (wgQuickErrMsg "boom" "")] ∧
     (pyStrip "boom" ≠ "" → wgQuickErrMsg "boom" "" = pyStrip "boom") ∧
     (pyStrip "boom" = "" → pyStrip "" ≠ "" → wgQuickErrMsg "boom" "" = pyStrip "") ∧
     (pyStrip "boom" = "" → pyStrip "" = "" →
       wgQuickErrMsg "boom" "" = "wg-quick failed")) :=
  ⟨⟨by decide, by decide, by decide⟩,
   command_failure_message envCompleted "home" true 1 "" "boom"
     (by decide) (by decide) (by decide)⟩

/-- C10: the directory is scanned exactly once at startup: any number of
later refreshes, each seeing arbitrary (possibly changed) directory
contents and probe results, leaves the offered interface list and the gate
decision exactly as computed at startup. -/
theorem startup_scan_immutable (files : List String) (ws : List RefreshWorld) :
    (List.foldl refresh (initApp files) ws).cards = (initApp files).cards ∧
    (List.foldl refresh (initApp files) ws).gateBlocked
      = (initApp files).gateBlocked :=
  foldl_refresh_preserves (initApp files) ws

end WireWarden
